import Mathlib

/-!
Verification of `etl/join_building_data/load_csv.py`: a shallow embedding of
the row-processing pipeline (identifier resolution, JSON-column decoding,
update submission and reporting) together with proofs of its specification.

Python values flowing through the script (CSV cell values, decoded JSON,
API responses) are modelled by one inductive type `PyVal`; Python `None`
and JSON `null` are both `PyVal.none`, as in Python.  JSON numbers are
modelled as integers (no claim depends on non-integral numbers).  The
external collaborators (the reference-lookup endpoint, `json.loads`, and
the update endpoint) are oracles passed in as function parameters; raised
Python exceptions are modelled with `Except String`.
-/

set_option autoImplicit false

/-- A Python value as used by the script: `None`, booleans, integers,
strings, lists and string-keyed dicts (dicts are ordered, as in Python). -/
inductive PyVal where
  | none : PyVal
  | bool (b : Bool) : PyVal
  | int (n : Int) : PyVal
  | str (s : String) : PyVal
  | list (xs : List PyVal) : PyVal
  | dict (fs : List (String × PyVal)) : PyVal

/-- Python `v is None`. -/
def isNone : PyVal → Bool
  | .none => true
  | _ => false

/-- A CSV row after `csv.DictReader`: an ordered mapping of column name to
value (a string, or `None` for a short row). -/
abbrev Row := List (String × PyVal)

/-- Python `k in d` for a dict `d`. -/
def dictContains (d : Row) (k : String) : Bool :=
  d.any (fun p => p.1 == k)

/-- Python `d[k]` for a dict `d`, `Option.none` when the key is missing. -/
def dictGet? (d : Row) (k : String) : Option PyVal :=
  (d.find? (fun p => p.1 == k)).map (fun p => p.2)

/-- Python `d[k] = v`: replace the value at `k` in place, append when absent. -/
def dictSet : Row → String → PyVal → Row
  | [], k, v => [(k, v)]
  | (k₀, v₀) :: rest, k, v =>
    if k₀ == k then (k₀, v) :: rest else (k₀, v₀) :: dictSet rest k v

/-- Python `del d[k]`: remove the entry at `k`. -/
def dictDel (d : Row) (k : String) : Row :=
  d.filter (fun p => p.1 != k)

/-- Python truthiness of a value, as used by `if buildings`. -/
def truthy : PyVal → Bool
  | .none => false
  | .bool b => b
  | .int n => n != 0
  | .str s => s != ""
  | .list xs => !xs.isEmpty
  | .dict fs => !fs.isEmpty

/-- Does this value equal the Python string `'error'`?  (Python `==` between
a string and a non-string is `False`.) -/
def isErrorStr : PyVal → Bool
  | .str s => s == "error"
  | _ => false

/-- Is `pre` a prefix of the character list? -/
def charPrefix : List Char → List Char → Bool
  | [], _ => true
  | _ :: _, [] => false
  | a :: as, b :: bs => a == b && charPrefix as bs

/-- Does `needle` occur as a contiguous run of `haystack`? -/
def charOccurs (needle : List Char) : List Char → Bool
  | [] => charPrefix needle []
  | c :: cs => charPrefix needle (c :: cs) || charOccurs needle cs

/-- Is `needle` a substring of `haystack` (Python `needle in haystack` for
strings)? -/
def strOccurs (needle haystack : String) : Bool :=
  charOccurs needle.data haystack.data

/-- Python `'error' in v`: element membership for a list, key membership for
a dict, substring test for a string; a `TypeError` otherwise. -/
def pyContainsError : PyVal → Except String Bool
  | .list xs => .ok (xs.any isErrorStr)
  | .dict fs => .ok (fs.any (fun p => p.1 == "error"))
  | .str s => .ok (strOccurs "error" s)
  | _ => .error "TypeError: argument of type is not iterable"

/-- Python `len(v)`: a `TypeError` on values without a length. -/
def pyLen : PyVal → Except String Nat
  | .list xs => .ok xs.length
  | .dict fs => .ok fs.length
  | .str s => .ok s.length
  | _ => .error "TypeError: object has no len()"

/-- Python `v[0]`: head of a list, first character of a string; a `KeyError`
on a (string-keyed) dict and a `TypeError` otherwise. -/
def pyIndexZero : PyVal → Except String PyVal
  | .list [] => .error "IndexError: list index out of range"
  | .list (x :: _) => .ok x
  | .str s =>
    match s.data with
    | [] => .error "IndexError: string index out of range"
    | c :: _ => .ok (.str (String.mk [c]))
  | .dict _ => .error "KeyError: 0"
  | _ => .error "TypeError: object is not subscriptable"

/-- Python `v[k]` for a string key `k`: dict lookup (a `KeyError` when the
key is missing), a `TypeError` on non-dicts. -/
def pySubscript (v : PyVal) (k : String) : Except String PyVal :=
  match v with
  | .dict fs =>
    match (fs.find? (fun p => p.1 == k)).map (fun p => p.2) with
    | some x => .ok x
    | Option.none => .error "KeyError"
  | _ => .error "TypeError: value is not subscriptable"

/-- The single-quote character, used by Python `repr` of strings. -/
def squote : Char := Char.ofNat 39

/-- Python `repr` of a string: the string between single quotes (quote
choice simplified to always use single quotes). -/
def quoted (s : String) : String := String.mk (squote :: s.data ++ [squote])

mutual

/-- Python `repr(v)` (floats are out of the model). -/
def pyRepr : PyVal → String
  | .none => "None"
  | .bool true => "True"
  | .bool false => "False"
  | .int n => toString n
  | .str s => quoted s
  | .list xs => "[" ++ pyReprList xs ++ "]"
  | .dict fs => "\x7b" ++ pyReprDict fs ++ "\x7d"

/-- Comma-separated `repr`s of list elements. -/
def pyReprList : List PyVal → String
  | [] => ""
  | [x] => pyRepr x
  | x :: y :: rest => pyRepr x ++ ", " ++ pyReprList (y :: rest)

/-- Comma-separated `key: value` `repr`s of dict entries. -/
def pyReprDict : List (String × PyVal) → String
  | [] => ""
  | [(k, v)] => quoted k ++ ": " ++ pyRepr v
  | (k, v) :: y :: rest => quoted k ++ ": " ++ pyRepr v ++ ", " ++ pyReprDict (y :: rest)

end

/-- Python `str(v)` as used by `print`: the string itself for strings,
`repr` otherwise. -/
def pyStr : PyVal → String
  | .str s => s
  | v => pyRepr v

/-- Python `str` of a row, printed as a dict by `print("no_match", data)`. -/
def rowStr (d : Row) : String := "\x7b" ++ pyReprDict d ++ "\x7d"

example : pyStr (PyVal.int 7) = "7" := by decide
example : pyRepr (PyVal.list [.int 1, .int 2]) = "[1, 2]" := by decide
example : pyRepr (PyVal.str "a") = String.mk [squote, 'a', squote] := by decide

/-- The parsed JSON body returned by the reference endpoint for a given
key/id query (`GET {base}/api/buildings/reference` followed by `r.json()`),
modelled as an oracle. -/
abbrev LookupNet := String → PyVal → PyVal

/-- The `(status_code, parsed body)` pair returned by the update endpoint
for a given building id and payload (`POST {base}/api/buildings/{id}.json`),
modelled as an oracle. -/
abbrev UpdateNet := PyVal → Row → Nat × PyVal

/-- The `json.loads` collaborator, `Option.none` on a JSON parse failure. -/
abbrev JsonLoads := String → Option PyVal

/-- Embedding of `find_by_reference(base_url, ref_key, ref_id)`: query the
reference endpoint and return the sole candidate's `building_id`, or `None`
(`PyVal.none`) when the response is falsy, contains an `error` indicator,
or does not have length exactly one.  Exceptions raised by the Python
membership test, `len` or subscripts are modelled with `Except.error`. -/
def find_by_reference (net : LookupNet) (ref_key : String) (ref_id : PyVal) :
    Except String PyVal :=
  let buildings := net ref_key ref_id
  if truthy buildings then
    match pyContainsError buildings with
    | .error e => .error e
    | .ok true => .ok PyVal.none
    | .ok false =>
      match pyLen buildings with
      | .error e => .error e
      | .ok n =>
        if n == 1 then
          match pyIndexZero buildings with
          | .error e => .error e
          | .ok c => pySubscript c "building_id"
        else .ok PyVal.none
  else .ok PyVal.none

/-- Return value, printed lines and reference-lookup calls of one
`find_building` run. -/
structure ResolveResult where
  result : PyVal
  output : List String
  calls : List (String × PyVal)

/-- The `uprn` arm of `find_building`, reached when neither `building_id`
nor `toid` resolved; `acc` holds the reference-lookup calls already made. -/
def find_building_uprn (net : LookupNet) (data : Row)
    (acc : List (String × PyVal)) : Except String ResolveResult :=
  match dictGet? data "uprn" with
  | some uv =>
    match find_by_reference net "uprn" uv with
    | .error e => .error e
    | .ok b =>
      if isNone b then
        .ok ⟨PyVal.none, ["no_match " ++ rowStr data], acc ++ [("uprn", uv)]⟩
      else
        .ok ⟨b, ["match_by_uprn " ++ pyStr uv ++ " " ++ pyStr b], acc ++ [("uprn", uv)]⟩
  | Option.none => .ok ⟨PyVal.none, ["no_match " ++ rowStr data], acc⟩

/-- The `toid` arm of `find_building`, reached when `building_id` is absent
or `None` in the row. -/
def find_building_toid (net : LookupNet) (data : Row) :
    Except String ResolveResult :=
  match dictGet? data "toid" with
  | some tv =>
    match find_by_reference net "toid" tv with
    | .error e => .error e
    | .ok b =>
      if isNone b then
        find_building_uprn net data [("toid", tv)]
      else
        .ok ⟨b, ["match_by_toid " ++ pyStr tv ++ " " ++ pyStr b], [("toid", tv)]⟩
  | Option.none => find_building_uprn net data []

/-- Embedding of `find_building(data, base_url)`: the identifier-resolution
strategies in order (`building_id` directly, then `toid` lookup, then
`uprn` lookup), first success winning; `PyVal.none` as result means no
match.  Printed lines and lookup calls are returned alongside. -/
def find_building (net : LookupNet) (data : Row) : Except String ResolveResult :=
  match dictGet? data "building_id" with
  | some bid =>
    if isNone bid then find_building_toid net data
    else .ok ⟨bid, ["match_by_building_id " ++ pyStr bid], []⟩
  | Option.none => find_building_toid net data

/-- Embedding of `parse_json_columns(row, json_columns)`: replace each
designated column's string value by its parsed JSON value, in place,
left to right.  A missing column (`KeyError`), a non-string value
(`TypeError`) or a JSON parse failure (`JSONDecodeError`) raises. -/
def parse_json_columns (loads : JsonLoads) : Row → List String → Except String Row
  | row, [] => .ok row
  | row, col :: cols =>
    match dictGet? row col with
    | Option.none => .error ("KeyError: " ++ col)
    | some (PyVal.str s) =>
      match loads s with
      | some v => parse_json_columns loads (dictSet row col v) cols
      | Option.none => .error ("json.decoder.JSONDecodeError: " ++ s)
    | some _ => .error "TypeError: the JSON object must be str, not NoneType or parsed"

/-- The test `'sust_dec' in line and line['sust_dec'] == ''` of `main`
(Python `==` between `''` and a non-string is `False`). -/
def emptySustDec (line : Row) : Bool :=
  match dictGet? line "sust_dec" with
  | some (PyVal.str s) => s == ""
  | _ => false

/-- The line printed by `main` after `update_building` returns `cb`:
an `ERROR` line when the status is not 200, a `DEBUG` line otherwise,
both carrying the full response body. -/
def update_report (bid : PyVal) (cb : Nat × PyVal) : String :=
  (if cb.1 != 200 then "ERROR " else "DEBUG ") ++
    pyStr bid ++ " " ++ toString cb.1 ++ " " ++ pyStr cb.2

/-- The pre-submission transform of `main` on an already JSON-decoded row:
drop `sust_dec` when present and equal to the empty string. -/
def sustDecTransform (line : Row) : Row :=
  if emptySustDec line then dictDel line "sust_dec" else line

/-- One iteration of the `main` loop for one CSV row: resolve, decode
designated JSON columns, skip when unresolved, drop an empty `sust_dec`,
submit the update via `update_building` and report.  Returns the update
submissions made (building id and payload) and the lines printed. -/
def process_row (net : LookupNet) (loads : JsonLoads) (post : UpdateNet)
    (json_columns : List String) (line : Row) :
    Except String (List (PyVal × Row) × List String) :=
  match find_building net line with
  | .error e => .error e
  | .ok r =>
    match parse_json_columns loads line json_columns with
    | .error e => .error e
    | .ok line2 =>
      if isNone r.result then
        .ok ([], r.output)
      else
        let payload := sustDecTransform line2
        .ok ([(r.result, payload)],
          r.output ++ [update_report r.result (post r.result payload)])

/-- Embedding of `main`: process the parsed CSV rows in order; an uncaught
exception aborts the whole run. -/
def main (net : LookupNet) (loads : JsonLoads) (post : UpdateNet)
    (json_columns : List String) :
    List Row → Except String (List (PyVal × Row) × List String)
  | [] => .ok ([], [])
  | row :: rows =>
    match process_row net loads post json_columns row with
    | .error e => .error e
    | .ok (subs, out) =>
      match main net loads post json_columns rows with
      | .error e => .error e
      | .ok (subs2, out2) => .ok (subs ++ subs2, out ++ out2)

/-- The arguments of a `@retry(...)` decorator of the `retrying` package as
they appear in the source; `stop_max_attempt_number` is absent from both
call sites, which in `retrying` means no retry ceiling. -/
structure RetryPolicy where
  wait_exponential_multiplier : Nat
  wait_exponential_max : Nat
  stop_max_attempt_number : Option Nat
deriving DecidableEq

/-- The decorator arguments on `update_building`. -/
def update_building_retry : RetryPolicy := ⟨1000, 10000, Option.none⟩

/-- The decorator arguments on `find_by_reference`. -/
def find_by_reference_retry : RetryPolicy := ⟨1000, 10000, Option.none⟩

/-- Modelled from the spec: the exponential-backoff delay of the `retrying`
package (an external dependency, not part of this repository) for given
decorator arguments.  The delay before retry `k` (counting from 0) is the
multiplier doubled `k` times, capped at `wait_exponential_max`
milliseconds. -/
def retry_wait_ms (p : RetryPolicy) (k : Nat) : Nat :=
  min (p.wait_exponential_multiplier * 2 ^ k) p.wait_exponential_max

theorem dictGet?_dictSet_self (d : Row) (k : String) (v : PyVal) :
    dictGet? (dictSet d k v) k = some v := by
  induction d with
  | nil => simp [dictSet, dictGet?, List.find?]
  | cons p rest ih =>
    obtain ⟨k₀, v₀⟩ := p
    by_cases h : k₀ = k
    · subst h
      simp [dictSet, dictGet?, List.find?]
    · simp only [dictSet, beq_false_of_ne h, Bool.false_eq_true, if_false]
      simpa [dictGet?, List.find?, beq_false_of_ne h] using ih

theorem dictGet?_dictSet_ne (d : Row) (k k' : String) (v : PyVal) (h : k' ≠ k) :
    dictGet? (dictSet d k v) k' = dictGet? d k' := by
  induction d with
  | nil => simp [dictSet, dictGet?, List.find?, beq_false_of_ne (fun hh => h hh.symm)]
  | cons p rest ih =>
    obtain ⟨k₀, v₀⟩ := p
    by_cases hk : k₀ = k
    · subst hk
      simp [dictSet, dictGet?, List.find?, beq_false_of_ne (fun hh : k₀ = k' => h hh.symm)]
    · by_cases hk' : k₀ = k'
      · subst hk'
        simp [dictSet, dictGet?, List.find?, beq_false_of_ne hk]
      · simp only [dictSet, beq_false_of_ne hk, Bool.false_eq_true, if_false]
        simpa [dictGet?, List.find?, beq_false_of_ne hk'] using ih

theorem dictContains_eq_isSome (d : Row) (k : String) :
    dictContains d k = (dictGet? d k).isSome := by
  induction d with
  | nil => rfl
  | cons p rest ih =>
    obtain ⟨k₀, v₀⟩ := p
    by_cases h : k₀ = k
    · subst h
      simp [dictContains, dictGet?, List.find?]
    · simpa [dictContains, dictGet?, List.find?, beq_false_of_ne h, h] using ih

theorem dictGet?_dictDel_ne (d : Row) (k k' : String) (h : k' ≠ k) :
    dictGet? (dictDel d k) k' = dictGet? d k' := by
  induction d with
  | nil => rfl
  | cons p rest ih =>
    obtain ⟨k₀, v₀⟩ := p
    by_cases hk : k₀ = k
    · subst hk
      simpa [dictDel, dictGet?, List.find?,
        beq_false_of_ne (fun hh : k₀ = k' => h hh.symm)] using ih
    · by_cases hk' : k₀ = k'
      · subst hk'
        simp [dictDel, dictGet?, List.find?, hk]
      · simpa [dictDel, dictGet?, List.find?, hk, hk',
          beq_false_of_ne hk'] using ih

theorem parse_json_columns_contains (loads : JsonLoads) (cols : List String) :
    ∀ (row line : Row), parse_json_columns loads row cols = .ok line →
      ∀ k, dictContains line k = dictContains row k := by
  induction cols with
  | nil =>
    intro row line h k
    simp only [parse_json_columns] at h
    cases h
    rfl
  | cons col cols ih =>
    intro row line h k
    simp only [parse_json_columns] at h
    cases hg : dictGet? row col with
    | none => simp [hg] at h
    | some v =>
      cases v with
      | str s =>
        cases hl : loads s with
        | none => simp [hg, hl] at h
        | some w =>
          simp only [hg, hl] at h
          rw [ih (dictSet row col w) line h k]
          rw [dictContains_eq_isSome, dictContains_eq_isSome]
          by_cases hk : k = col
          · subst hk
            rw [dictGet?_dictSet_self, hg]
            rfl
          · rw [dictGet?_dictSet_ne _ _ _ _ hk]
      | none => simp [hg] at h
      | bool b => simp [hg] at h
      | int n => simp [hg] at h
      | list xs => simp [hg] at h
      | dict fs => simp [hg] at h

theorem isNone_eq_true_iff (v : PyVal) : isNone v = true ↔ v = PyVal.none := by
  cases v <;> simp [isNone]

theorem dictContains_sustDecTransform (line : Row) (k : String) (hk : k ≠ "sust_dec") :
    dictContains (sustDecTransform line) k = dictContains line k := by
  unfold sustDecTransform
  split
  · rw [dictContains_eq_isSome, dictContains_eq_isSome, dictGet?_dictDel_ne _ _ _ hk]
  · rfl

/-- Reference-endpoint oracle for end-to-end scenario B: the query
`toid=X123` has exactly one candidate, with `building_id` 7; every other
query has no candidates. -/
def netB : LookupNet := fun key idv =>
  if key == "toid" && (match idv with | .str s => s == "X123" | _ => false) then
    .list [.dict [("building_id", .int 7)]]
  else .list []

/-- Update-endpoint oracle answering status 200 with an empty JSON object. -/
def postOk : UpdateNet := fun _ _ => (200, PyVal.dict [])

/-- A `json.loads` oracle on which every parse fails (unused when no JSON
columns are configured). -/
def loads0 : JsonLoads := fun _ => Option.none

/-- The row of end-to-end scenario B. -/
def rowB : Row := [("toid", PyVal.str "X123"), ("height", PyVal.str "10")]

/-- Claim C1 is false as stated: for scenario B's row `{toid: X123,
height: 10}` the lookup resolves to identifier 7, but the payload passed
to the update submission is the whole row, still containing the `toid`
identifier column — `main` never removes identifier columns. -/
theorem update_payload_keeps_toid_counterexample :
    process_row netB loads0 postOk [] rowB =
      .ok ([(PyVal.int 7, rowB)], ["match_by_toid X123 7", "DEBUG 7 200 \x7b\x7d"]) ∧
    dictContains rowB "toid" = true :=
  ⟨rfl, rfl⟩

/-- Claim C1 (amended): for every row for which an identifier is resolved,
the payload passed to the update submission is the row after JSON-column
decoding, with a present-but-empty `sust_dec` column dropped; the
identifier columns (`building_id`, `toid`, `uprn`) are not removed — every
column other than `sust_dec` is present in the payload exactly when it is
present in the input row. -/
theorem update_payload_shape (net : LookupNet) (loads : JsonLoads)
    (post : UpdateNet) (jc : List String) (row : Row)
    (subs : List (PyVal × Row)) (out : List String)
    (h : process_row net loads post jc row = .ok (subs, out))
    (bid : PyVal) (payload : Row) (hmem : (bid, payload) ∈ subs) :
    ∃ line2, parse_json_columns loads row jc = .ok line2 ∧
      payload = sustDecTransform line2 ∧
      ∀ k, k ≠ "sust_dec" → dictContains payload k = dictContains row k := by
  simp only [process_row] at h
  cases hfb : find_building net row with
  | error e => simp [hfb] at h
  | ok r =>
    cases hp : parse_json_columns loads row jc with
    | error e => simp [hfb, hp] at h
    | ok line2 =>
      simp only [hfb, hp] at h
      by_cases hn : isNone r.result
      · simp [hn] at h
        rcases h with ⟨h1, h2⟩
        rw [h1] at hmem
        cases hmem
      · simp [hn] at h
        rcases h with ⟨h1, h2⟩
        rw [← h1] at hmem
        rcases List.mem_singleton.mp hmem with heq
        refine ⟨line2, rfl, ?_, ?_⟩
        · exact congrArg Prod.snd heq
        · intro k hk
          have hpay : payload = sustDecTransform line2 := congrArg Prod.snd heq
          rw [hpay, dictContains_sustDecTransform _ _ hk]
          exact parse_json_columns_contains loads jc row line2 hp k

/-- Witness for `update_payload_shape` on scenario B's concrete row. -/
theorem update_payload_shape_witness :
    ∃ line2, parse_json_columns loads0 rowB [] = .ok line2 ∧
      rowB = sustDecTransform line2 ∧
      ∀ k, k ≠ "sust_dec" → dictContains rowB k = dictContains rowB k :=
  update_payload_shape netB loads0 postOk [] rowB [(PyVal.int 7, rowB)]
    ["match_by_toid X123 7", "DEBUG 7 200 \x7b\x7d"] rfl (PyVal.int 7) rowB
    (List.mem_singleton.mpr rfl)

/-- The row has no usable `building_id`: the column is absent, or its value
is `None` (in both cases `find_building` falls through to the lookups). -/
def noUsableBid (row : Row) : Bool :=
  match dictGet? row "building_id" with
  | some v => isNone v
  | Option.none => true

theorem isNone_none : isNone PyVal.none = true := rfl

theorem find_building_of_noUsableBid (net : LookupNet) (row : Row)
    (h : noUsableBid row = true) :
    find_building net row = find_building_toid net row := by
  unfold noUsableBid at h
  unfold find_building
  cases hg : dictGet? row "building_id" with
  | none => rfl
  | some v =>
    rw [hg] at h
    simp only [] at h
    simp [h]

/-- Claim C2: the resolver evaluates the strategies in strict order with
first success winning.  A present non-`None` `building_id` is returned
directly with no lookup call (conjunct 1); otherwise a present `toid` is
looked up under key `"toid"` and a hit wins (2); otherwise — including when
the `toid` lookup resolved to `None` — a present `uprn` is looked up under
key `"uprn"` (3, 4); otherwise the resolver returns `None` (5-8), the
`calls` component recording exactly which lookups were performed. -/
theorem find_building_strategy_order (net : LookupNet) (row : Row) :
    (∀ v, dictGet? row "building_id" = some v → isNone v = false →
      find_building net row = .ok ⟨v, ["match_by_building_id " ++ pyStr v], []⟩) ∧
    (noUsableBid row = true → ∀ tv b, dictGet? row "toid" = some tv →
      find_by_reference net "toid" tv = .ok b → isNone b = false →
      find_building net row =
        .ok ⟨b, ["match_by_toid " ++ pyStr tv ++ " " ++ pyStr b], [("toid", tv)]⟩) ∧
    (noUsableBid row = true → dictGet? row "toid" = Option.none →
      ∀ uv b, dictGet? row "uprn" = some uv →
      find_by_reference net "uprn" uv = .ok b → isNone b = false →
      find_building net row =
        .ok ⟨b, ["match_by_uprn " ++ pyStr uv ++ " " ++ pyStr b], [("uprn", uv)]⟩) ∧
    (noUsableBid row = true → ∀ tv, dictGet? row "toid" = some tv →
      find_by_reference net "toid" tv = .ok PyVal.none →
      ∀ uv b, dictGet? row "uprn" = some uv →
      find_by_reference net "uprn" uv = .ok b → isNone b = false →
      find_building net row =
        .ok ⟨b, ["match_by_uprn " ++ pyStr uv ++ " " ++ pyStr b],
          [("toid", tv), ("uprn", uv)]⟩) ∧
    (noUsableBid row = true → dictGet? row "toid" = Option.none →
      dictGet? row "uprn" = Option.none →
      find_building net row = .ok ⟨PyVal.none, ["no_match " ++ rowStr row], []⟩) ∧
    (noUsableBid row = true → ∀ tv, dictGet? row "toid" = some tv →
      find_by_reference net "toid" tv = .ok PyVal.none →
      dictGet? row "uprn" = Option.none →
      find_building net row =
        .ok ⟨PyVal.none, ["no_match " ++ rowStr row], [("toid", tv)]⟩) ∧
    (noUsableBid row = true → dictGet? row "toid" = Option.none →
      ∀ uv, dictGet? row "uprn" = some uv →
      find_by_reference net "uprn" uv = .ok PyVal.none →
      find_building net row =
        .ok ⟨PyVal.none, ["no_match " ++ rowStr row], [("uprn", uv)]⟩) ∧
    (noUsableBid row = true → ∀ tv, dictGet? row "toid" = some tv →
      find_by_reference net "toid" tv = .ok PyVal.none →
      ∀ uv, dictGet? row "uprn" = some uv →
      find_by_reference net "uprn" uv = .ok PyVal.none →
      find_building net row =
        .ok ⟨PyVal.none, ["no_match " ++ rowStr row],
          [("toid", tv), ("uprn", uv)]⟩) := by
  refine ⟨?_, ?_, ?_, ?_, ?_, ?_, ?_, ?_⟩
  · intro v hv hn
    simp [find_building, hv, hn]
  · intro hb tv b ht hl hn
    rw [find_building_of_noUsableBid _ _ hb]
    simp [find_building_toid, ht, hl, hn]
  · intro hb ht uv b hu hl hn
    rw [find_building_of_noUsableBid _ _ hb]
    simp [find_building_toid, find_building_uprn, ht, hu, hl, hn]
  · intro hb tv ht hlt uv b hu hl hn
    rw [find_building_of_noUsableBid _ _ hb]
    simp [find_building_toid, find_building_uprn, ht, hlt, hu, hl, hn, isNone_none]
  · intro hb ht hu
    rw [find_building_of_noUsableBid _ _ hb]
    simp [find_building_toid, find_building_uprn, ht, hu]
  · intro hb tv ht hlt hu
    rw [find_building_of_noUsableBid _ _ hb]
    simp [find_building_toid, find_building_uprn, ht, hlt, hu, isNone_none]
  · intro hb ht uv hu hlu
    rw [find_building_of_noUsableBid _ _ hb]
    simp [find_building_toid, find_building_uprn, ht, hu, hlu, isNone_none]
  · intro hb tv ht hlt uv hu hlu
    rw [find_building_of_noUsableBid _ _ hb]
    simp [find_building_toid, find_building_uprn, ht, hlt, hu, hlu, isNone_none]

/-- Witness for `find_building_strategy_order`: a row with `building_id`
`"42"` resolves to `"42"` with no lookup call. -/
theorem find_building_strategy_order_witness :
    find_building netB [("building_id", PyVal.str "42"), ("name", PyVal.str "Town Hall")] =
      .ok ⟨PyVal.str "42", ["match_by_building_id 42"], []⟩ :=
  (find_building_strategy_order netB
    [("building_id", PyVal.str "42"), ("name", PyVal.str "Town Hall")]).1
    (PyVal.str "42") rfl rfl

/-- Claim C3: a reference lookup returns an identifier only when the remote
response is a one-element candidate list containing no error indicator, and
then it returns that sole candidate's `building_id` (conjunct 1, with its
converse in conjunct 2); an empty candidate list, a list of two or more
candidates, or a response with an error indicator all yield `None`
(conjuncts 3-5). -/
theorem find_by_reference_sole_candidate (net : LookupNet) (key : String)
    (idv : PyVal) :
    (∀ b, find_by_reference net key idv = .ok b → isNone b = false →
      ∃ c, net key idv = .list [c] ∧ pyContainsError (net key idv) = .ok false ∧
        pySubscript c "building_id" = .ok b) ∧
    (∀ c b, net key idv = .list [c] → pyContainsError (net key idv) = .ok false →
      pySubscript c "building_id" = .ok b →
      find_by_reference net key idv = .ok b) ∧
    (net key idv = .list [] → find_by_reference net key idv = .ok PyVal.none) ∧
    (∀ c₁ c₂ rest, net key idv = .list (c₁ :: c₂ :: rest) →
      find_by_reference net key idv = .ok PyVal.none) ∧
    (pyContainsError (net key idv) = .ok true →
      find_by_reference net key idv = .ok PyVal.none) := by
  refine ⟨?_, ?_, ?_, ?_, ?_⟩
  · intro b h hn
    unfold find_by_reference at h
    cases hresp : net key idv with
    | none => rw [hresp] at h; simp [truthy] at h; simp [← h, isNone] at hn
    | bool bb =>
      rw [hresp] at h
      cases bb <;> simp [truthy, pyContainsError] at h
      simp [← h, isNone] at hn
    | int n =>
      rw [hresp] at h
      by_cases hz : n = 0
      · subst hz; simp [truthy] at h; simp [← h, isNone] at hn
      · simp [truthy, hz, pyContainsError] at h
    | str s =>
      rw [hresp] at h
      by_cases hz : s = ""
      · subst hz; simp [truthy] at h; simp [← h, isNone] at hn
      · simp only [truthy] at h
        by_cases he : strOccurs "error" s
        · simp [hz, pyContainsError, he] at h; simp [← h, isNone] at hn
        · simp only [pyContainsError, he, hz] at h
          simp [pyLen] at h
          by_cases hlen : s.length = 1
          · simp [hlen, pyIndexZero] at h
            cases hd : s.data with
            | nil => rw [hd] at h; simp [hz] at h
            | cons c cs =>
              rw [hd] at h
              simp [hz, pySubscript] at h
          · simp [hlen] at h; simp [← h, isNone] at hn
    | list xs =>
      rw [hresp] at h
      cases xs with
      | nil => simp [truthy] at h; simp [← h, isNone] at hn
      | cons c rest =>
        simp only [truthy, List.isEmpty_cons, Bool.not_false, if_true] at h
        by_cases he : (c :: rest).any isErrorStr
        · simp [pyContainsError, he] at h; simp [← h, isNone] at hn
        · simp only [pyContainsError, he] at h
          cases rest with
          | nil =>
            simp [pyLen, pyIndexZero] at h
            exact ⟨c, rfl, by simp [pyContainsError, he], h⟩
          | cons c₂ rest₂ =>
            simp [pyLen, pyIndexZero] at h
            simp [← h, isNone] at hn
    | dict fs =>
      rw [hresp] at h
      cases fs with
      | nil => simp [truthy] at h; simp [← h, isNone] at hn
      | cons f rest =>
        simp only [truthy, List.isEmpty_cons, Bool.not_false, if_true] at h
        by_cases he : (f :: rest).any (fun p => p.1 == "error")
        · simp [pyContainsError, he] at h; simp [← h, isNone] at hn
        · simp only [pyContainsError, he] at h
          cases rest with
          | nil => simp [pyLen, pyIndexZero] at h
          | cons f₂ rest₂ =>
            simp [pyLen] at h
            simp [← h, isNone] at hn
  · intro c b hresp herr hsub
    unfold find_by_reference
    rw [hresp] at herr ⊢
    simp [truthy, herr, pyLen, pyIndexZero, hsub]
  · intro hresp
    unfold find_by_reference
    rw [hresp]
    simp [truthy]
  · intro c₁ c₂ rest hresp
    unfold find_by_reference
    rw [hresp]
    simp only [truthy, List.isEmpty_cons, Bool.not_false, if_true]
    cases he : (c₁ :: c₂ :: rest).any isErrorStr
    · simp [pyContainsError, he, pyLen]
    · simp [pyContainsError, he]
  · intro herr
    unfold find_by_reference
    cases ht : truthy (net key idv) with
    | false => simp [ht]
    | true => simp [ht, herr]

/-- Witness for `find_by_reference_sole_candidate`: the one-candidate
response of scenario B resolves to that candidate's `building_id` 7. -/
theorem find_by_reference_sole_candidate_witness :
    find_by_reference netB "toid" (PyVal.str "X123") = .ok (PyVal.int 7) :=
  (find_by_reference_sole_candidate netB "toid" (PyVal.str "X123")).2.1
    (PyVal.dict [("building_id", PyVal.int 7)]) (PyVal.int 7) rfl rfl rfl

/-- Claim C4: for every row at most one update submission is made, and one
is made only when the resolver returned an identifier (conjuncts 1-3);
when the resolver returns `None` the row is skipped with no submission
(conjunct 2), and in all cases the run continues with the remaining rows
(conjunct 4). -/
theorem at_most_one_submission (net : LookupNet) (loads : JsonLoads)
    (post : UpdateNet) (jc : List String) (row : Row)
    (subs : List (PyVal × Row)) (out : List String)
    (h : process_row net loads post jc row = .ok (subs, out)) :
    subs.length ≤ 1 ∧
    (∀ r, find_building net row = .ok r → isNone r.result = true → subs = []) ∧
    (∀ bid payload, (bid, payload) ∈ subs →
      ∃ r, find_building net row = .ok r ∧ r.result = bid ∧ isNone bid = false) ∧
    (∀ rows subs2 out2, main net loads post jc rows = .ok (subs2, out2) →
      main net loads post jc (row :: rows) = .ok (subs ++ subs2, out ++ out2)) := by
  have hcont : ∀ rows subs2 out2, main net loads post jc rows = .ok (subs2, out2) →
      main net loads post jc (row :: rows) = .ok (subs ++ subs2, out ++ out2) := by
    intro rows subs2 out2 hm
    simp [main, h, hm]
  simp only [process_row] at h
  cases hfb : find_building net row with
  | error e => simp [hfb] at h
  | ok r =>
    cases hp : parse_json_columns loads row jc with
    | error e => simp [hfb, hp] at h
    | ok line2 =>
      simp only [hfb, hp] at h
      by_cases hn : isNone r.result
      · simp [hn] at h
        rcases h with ⟨h1, h2⟩
        refine ⟨by simp [h1], fun _ _ _ => h1, ?_, hcont⟩
        intro bid payload hmem
        rw [h1] at hmem
        cases hmem
      · simp [hn] at h
        rcases h with ⟨h1, h2⟩
        have hnf : isNone r.result = false := by simpa using hn
        refine ⟨by rw [← h1]; simp, ?_, ?_, hcont⟩
        · intro r' hr' htrue
          have hrr : r = r' := Except.ok.inj hr'
          rw [← hrr] at htrue
          rw [htrue] at hnf
          cases hnf
        · intro bid payload hmem
          rw [← h1] at hmem
          rcases List.mem_singleton.mp hmem with heq
          have hb : bid = r.result := congrArg Prod.fst heq
          refine ⟨r, rfl, hb.symm, ?_⟩
          rw [hb]
          exact hnf

/-- Witness for `at_most_one_submission` on scenario B's concrete row. -/
theorem at_most_one_submission_witness :
    ([(PyVal.int 7, rowB)] : List (PyVal × Row)).length ≤ 1 :=
  (at_most_one_submission netB loads0 postOk [] rowB [(PyVal.int 7, rowB)]
    ["match_by_toid X123 7", "DEBUG 7 200 \x7b\x7d"] rfl).1

/-- Claim C5: for every submitted update the last printed line reports an
`ERROR` when the response status is not 200 and a `DEBUG` success
otherwise, in both cases with the full response body; the submission list
holds that submission exactly once (no application-level retry) and the
run continues with the remaining rows. -/
theorem update_report_per_status (net : LookupNet) (loads : JsonLoads)
    (post : UpdateNet) (jc : List String) (row : Row)
    (subs : List (PyVal × Row)) (out : List String)
    (h : process_row net loads post jc row = .ok (subs, out))
    (bid : PyVal) (payload : Row) (hmem : (bid, payload) ∈ subs) :
    subs = [(bid, payload)] ∧
    ((post bid payload).1 ≠ 200 →
      out.getLast? = some ("ERROR " ++ pyStr bid ++ " " ++
        toString (post bid payload).1 ++ " " ++ pyStr (post bid payload).2)) ∧
    ((post bid payload).1 = 200 →
      out.getLast? = some ("DEBUG " ++ pyStr bid ++ " " ++
        toString (post bid payload).1 ++ " " ++ pyStr (post bid payload).2)) ∧
    (∀ rows subs2 out2, main net loads post jc rows = .ok (subs2, out2) →
      main net loads post jc (row :: rows) = .ok (subs ++ subs2, out ++ out2)) := by
  have hcont : ∀ rows subs2 out2, main net loads post jc rows = .ok (subs2, out2) →
      main net loads post jc (row :: rows) = .ok (subs ++ subs2, out ++ out2) := by
    intro rows subs2 out2 hm
    simp [main, h, hm]
  simp only [process_row] at h
  cases hfb : find_building net row with
  | error e => simp [hfb] at h
  | ok r =>
    cases hp : parse_json_columns loads row jc with
    | error e => simp [hfb, hp] at h
    | ok line2 =>
      simp only [hfb, hp] at h
      by_cases hn : isNone r.result
      · simp [hn] at h
        rcases h with ⟨h1, h2⟩
        rw [h1] at hmem
        cases hmem
      · simp [hn] at h
        rcases h with ⟨h1, h2⟩
        rw [← h1] at hmem
        rcases List.mem_singleton.mp hmem with heq
        have hb : bid = r.result := congrArg Prod.fst heq
        have hpay : payload = sustDecTransform line2 := congrArg Prod.snd heq
        have hout : out = r.output ++ [update_report bid (post bid payload)] := by
          rw [← h2, hb, hpay]
        refine ⟨by rw [← h1, hb, hpay], ?_, ?_, hcont⟩
        · intro hcode
          rw [hout, List.getLast?_append_cons]
          have hbne : ((post bid payload).1 != 200) = true := bne_iff_ne.mpr hcode
          simp [update_report, hbne]
        · intro hcode
          rw [hout, List.getLast?_append_cons]
          simp [update_report, hcode]

/-- Update-endpoint oracle of end-to-end scenario D: every submission is
rejected with status 422 and a body naming the failure. -/
def post422 : UpdateNet := fun _ _ => (422, PyVal.str "invalid")

/-- Witness for `update_report_per_status`: scenario D's rejected update is
reported with an `ERROR` line carrying the body. -/
theorem update_report_per_status_witness :
    (["match_by_toid X123 7", "ERROR 7 422 invalid"] : List String).getLast? =
      some ("ERROR " ++ pyStr (PyVal.int 7) ++ " " ++ toString (post422 (PyVal.int 7) rowB).1 ++
        " " ++ pyStr (post422 (PyVal.int 7) rowB).2) :=
  (update_report_per_status netB loads0 post422 [] rowB [(PyVal.int 7, rowB)]
    ["match_by_toid X123 7", "ERROR 7 422 invalid"] rfl (PyVal.int 7) rowB
    (List.mem_singleton.mpr rfl)).2.1 (by decide)

theorem parse_json_columns_notMem (loads : JsonLoads) (cols : List String) :
    ∀ (row line : Row), parse_json_columns loads row cols = .ok line →
      ∀ k, k ∉ cols → dictGet? line k = dictGet? row k := by
  induction cols with
  | nil =>
    intro row line h k _
    simp only [parse_json_columns] at h
    cases h
    rfl
  | cons col cols ih =>
    intro row line h k hk
    simp only [parse_json_columns] at h
    cases hg : dictGet? row col with
    | none => simp [hg] at h
    | some v =>
      cases v with
      | str s =>
        cases hl : loads s with
        | none => simp [hg, hl] at h
        | some w =>
          simp only [hg, hl] at h
          have hk1 : k ≠ col := fun hh => hk (hh ▸ List.mem_cons_self _ _)
          have hk2 : k ∉ cols := fun hh => hk (List.mem_cons_of_mem _ hh)
          rw [ih (dictSet row col w) line h k hk2, dictGet?_dictSet_ne _ _ _ _ hk1]
      | none => simp [hg] at h
      | bool b => simp [hg] at h
      | int n => simp [hg] at h
      | list xs => simp [hg] at h
      | dict fs => simp [hg] at h

theorem parse_json_columns_decodes (loads : JsonLoads) (cols : List String) :
    ∀ (row line : Row), cols.Nodup → parse_json_columns loads row cols = .ok line →
      ∀ col ∈ cols, ∃ s v, dictGet? row col = some (PyVal.str s) ∧ loads s = some v ∧
        dictGet? line col = some v := by
  induction cols with
  | nil =>
    intro row line _ _ col hcol
    cases hcol
  | cons c cs ih =>
    intro row line hnd h col hcol
    simp only [parse_json_columns] at h
    cases hg : dictGet? row c with
    | none => simp [hg] at h
    | some v =>
      cases v with
      | str s =>
        cases hl : loads s with
        | none => simp [hg, hl] at h
        | some w =>
          simp only [hg, hl] at h
          have hnotin : c ∉ cs := (List.nodup_cons.mp hnd).1
          have hnd' : cs.Nodup := (List.nodup_cons.mp hnd).2
          rcases List.mem_cons.mp hcol with hceq | hmem
          · subst hceq
            refine ⟨s, w, hg, hl, ?_⟩
            rw [parse_json_columns_notMem loads cs (dictSet row col w) line h col hnotin,
              dictGet?_dictSet_self]
          · have hne : col ≠ c := fun hh => hnotin (hh ▸ hmem)
            rcases ih (dictSet row c w) line hnd' h col hmem with ⟨s', v', hg', hl', hline⟩
            rw [dictGet?_dictSet_ne _ _ _ _ hne] at hg'
            exact ⟨s', v', hg', hl', hline⟩
      | none => simp [hg] at h
      | bool b => simp [hg] at h
      | int n => simp [hg] at h
      | list xs => simp [hg] at h
      | dict fs => simp [hg] at h

theorem parse_json_columns_fatal (loads : JsonLoads) (cols : List String) :
    ∀ (row : Row) (col s : String), col ∈ cols →
      dictGet? row col = some (PyVal.str s) → loads s = Option.none →
      ∃ e, parse_json_columns loads row cols = .error e := by
  induction cols with
  | nil =>
    intro row col s hmem
    cases hmem
  | cons c cs ih =>
    intro row col s hmem hg hl
    by_cases hc : col = c
    · subst hc
      refine ⟨"json.decoder.JSONDecodeError: " ++ s, ?_⟩
      simp [parse_json_columns, hg, hl]
    · have hmem' : col ∈ cs := by
        rcases List.mem_cons.mp hmem with hh | hh
        · exact absurd hh hc
        · exact hh
      cases hgc : dictGet? row c with
      | none => exact ⟨_, by simp only [parse_json_columns, hgc]; rfl⟩
      | some v =>
        cases v with
        | str s₀ =>
          cases hlc : loads s₀ with
          | none => exact ⟨_, by simp only [parse_json_columns, hgc, hlc]; rfl⟩
          | some w =>
            have hg' : dictGet? (dictSet row c w) col = some (.str s) := by
              rw [dictGet?_dictSet_ne _ _ _ _ hc]
              exact hg
            have := ih (dictSet row c w) col s hmem' hg' hl
            rcases this with ⟨e, he⟩
            exact ⟨e, by simp only [parse_json_columns, hgc, hlc]; exact he⟩
        | none => exact ⟨_, by simp only [parse_json_columns, hgc]; rfl⟩
        | bool b => exact ⟨_, by simp only [parse_json_columns, hgc]; rfl⟩
        | int n => exact ⟨_, by simp only [parse_json_columns, hgc]; rfl⟩
        | list xs => exact ⟨_, by simp only [parse_json_columns, hgc]; rfl⟩
        | dict fs => exact ⟨_, by simp only [parse_json_columns, hgc]; rfl⟩

/-- Claim C6: every designated (distinct) JSON column's string value is
parsed and replaced by the structured parsed value in the result (first
conjunct); a designated column whose string fails to parse makes
`parse_json_columns` raise — the error is not caught locally and is fatal
for that row's processing (second conjunct). -/
theorem json_column_decoding (loads : JsonLoads) (jc : List String) (row line : Row)
    (hnd : jc.Nodup) :
    (parse_json_columns loads row jc = .ok line →
      ∀ col ∈ jc, ∃ s v, dictGet? row col = some (PyVal.str s) ∧ loads s = some v ∧
        dictGet? line col = some v) ∧
    (∀ col s, col ∈ jc → dictGet? row col = some (PyVal.str s) →
      loads s = Option.none → ∃ e, parse_json_columns loads row jc = .error e) :=
  ⟨fun h col hcol => parse_json_columns_decodes loads jc row line hnd h col hcol,
   fun col s hcol hg hl => parse_json_columns_fatal loads jc row col s hcol hg hl⟩

/-- A `json.loads` oracle that parses the one literal `[1,2,3]` used by the
spec's decoding example and fails on everything else. -/
def loadsJ : JsonLoads := fun s =>
  if s == "[1,2,3]" then some (.list [.int 1, .int 2, .int 3]) else Option.none

/-- The row of the spec's JSON-decoding example. -/
def rowJ : Row := [("arr", PyVal.str "[1,2,3]")]

/-- Witness for `json_column_decoding`: the designated column `arr` with
value `[1,2,3]` is decoded to the structured array. -/
theorem json_column_decoding_witness :
    ∃ s v, dictGet? rowJ "arr" = some (PyVal.str s) ∧ loadsJ s = some v ∧
      dictGet? [("arr", PyVal.list [.int 1, .int 2, .int 3])] "arr" = some v :=
  (json_column_decoding loadsJ ["arr"] rowJ
      [("arr", PyVal.list [.int 1, .int 2, .int 3])] (by simp)).1 rfl
    "arr" (List.mem_singleton.mpr rfl)

/-- Claim C7: reference lookups and update submissions share one retry
policy — exponential backoff with a 1 second initial delay, doubling on
each retry, capped at 10 seconds per attempt, and with no bound on the
number of retries (`stop_max_attempt_number` absent). -/
theorem shared_retry_policy :
    find_by_reference_retry = update_building_retry ∧
    retry_wait_ms update_building_retry 0 = 1000 ∧
    (∀ k, retry_wait_ms update_building_retry (k + 1) =
      min (2 * retry_wait_ms update_building_retry k) 10000) ∧
    (∀ k, retry_wait_ms update_building_retry k ≤ 10000) ∧
    update_building_retry.stop_max_attempt_number = Option.none := by
  refine ⟨rfl, rfl, ?_, ?_, rfl⟩
  · intro k
    have h2 : (1000 : Nat) * 2 ^ (k + 1) = 2 * (1000 * 2 ^ k) := by ring
    simp only [retry_wait_ms, update_building_retry, h2]
    generalize (1000 : Nat) * 2 ^ k = x
    omega
  · intro k
    exact Nat.min_le_right _ _

/-- Witness for `shared_retry_policy`: the delay before the third retry is
twice the delay before the second, capped at 10 seconds. -/
theorem shared_retry_policy_witness :
    retry_wait_ms update_building_retry 3 =
      min (2 * retry_wait_ms update_building_retry 2) 10000 :=
  shared_retry_policy.2.2.1 2

theorem find_building_uprn_full (net : LookupNet) (row : Row)
    (acc : List (String × PyVal)) (r : ResolveResult)
    (h : find_building_uprn net row acc = .ok r) :
    (dictGet? row "uprn" = Option.none ∧
      r = ⟨PyVal.none, ["no_match " ++ rowStr row], acc⟩) ∨
    (∃ uv, dictGet? row "uprn" = some uv ∧
      ((find_by_reference net "uprn" uv = .ok PyVal.none ∧
        r = ⟨PyVal.none, ["no_match " ++ rowStr row], acc ++ [("uprn", uv)]⟩) ∨
       (∃ b, find_by_reference net "uprn" uv = .ok b ∧ isNone b = false ∧
        r = ⟨b, ["match_by_uprn " ++ pyStr uv ++ " " ++ pyStr b],
          acc ++ [("uprn", uv)]⟩))) := by
  unfold find_building_uprn at h
  cases hu : dictGet? row "uprn" with
  | none =>
    simp only [hu] at h
    cases h
    exact Or.inl ⟨rfl, rfl⟩
  | some uv =>
    simp only [hu] at h
    cases hl : find_by_reference net "uprn" uv with
    | error e => simp [hl] at h
    | ok b =>
      simp only [hl] at h
      by_cases hn : isNone b = true
      · rw [if_pos hn] at h
        cases h
        have hb : b = PyVal.none := (isNone_eq_true_iff b).mp hn
        rw [hb] at hl
        exact Or.inr ⟨uv, rfl, Or.inl ⟨hl, rfl⟩⟩
      · rw [if_neg hn] at h
        cases h
        exact Or.inr ⟨uv, rfl, Or.inr ⟨b, hl, by simpa using hn, rfl⟩⟩

theorem find_building_toid_full (net : LookupNet) (row : Row) (r : ResolveResult)
    (h : find_building_toid net row = .ok r) :
    (∃ tv b, dictGet? row "toid" = some tv ∧
      find_by_reference net "toid" tv = .ok b ∧ isNone b = false ∧
      r = ⟨b, ["match_by_toid " ++ pyStr tv ++ " " ++ pyStr b], [("toid", tv)]⟩) ∨
    (dictGet? row "toid" = Option.none ∧ find_building_uprn net row [] = .ok r) ∨
    (∃ tv, dictGet? row "toid" = some tv ∧
      find_by_reference net "toid" tv = .ok PyVal.none ∧
      find_building_uprn net row [("toid", tv)] = .ok r) := by
  unfold find_building_toid at h
  cases ht : dictGet? row "toid" with
  | none =>
    simp only [ht] at h
    exact Or.inr (Or.inl ⟨rfl, h⟩)
  | some tv =>
    simp only [ht] at h
    cases hl : find_by_reference net "toid" tv with
    | error e => simp [hl] at h
    | ok b =>
      simp only [hl] at h
      by_cases hn : isNone b = true
      · rw [if_pos hn] at h
        have hb : b = PyVal.none := (isNone_eq_true_iff b).mp hn
        rw [hb] at hl
        exact Or.inr (Or.inr ⟨tv, rfl, hl, h⟩)
      · rw [if_neg hn] at h
        cases h
        exact Or.inl ⟨tv, b, rfl, hl, by simpa using hn, rfl⟩

theorem find_building_full (net : LookupNet) (row : Row) (r : ResolveResult)
    (h : find_building net row = .ok r) :
    (∃ v, dictGet? row "building_id" = some v ∧ isNone v = false ∧
      r = ⟨v, ["match_by_building_id " ++ pyStr v], []⟩) ∨
    (noUsableBid row = true ∧ find_building_toid net row = .ok r) := by
  unfold find_building at h
  cases hg : dictGet? row "building_id" with
  | none =>
    simp only [hg] at h
    exact Or.inr ⟨by simp [noUsableBid, hg], h⟩
  | some v =>
    simp only [hg] at h
    by_cases hn : isNone v = true
    · rw [if_pos hn] at h
      exact Or.inr ⟨by simp [noUsableBid, hg, hn], h⟩
    · rw [if_neg hn] at h
      cases h
      exact Or.inl ⟨v, rfl, by simpa using hn, rfl⟩

/-- A printed line of one of the six documented per-row forms. -/
def SixForm (l : String) : Prop :=
  (∃ id, l = "match_by_building_id " ++ pyStr id) ∨
  (∃ v id, l = "match_by_toid " ++ pyStr v ++ " " ++ pyStr id) ∨
  (∃ v id, l = "match_by_uprn " ++ pyStr v ++ " " ++ pyStr id) ∨
  (∃ row : Row, l = "no_match " ++ rowStr row) ∨
  (∃ (id : PyVal) (c : Nat) (b : PyVal),
    l = "ERROR " ++ pyStr id ++ " " ++ toString c ++ " " ++ pyStr b) ∨
  (∃ (id : PyVal) (c : Nat) (b : PyVal),
    l = "DEBUG " ++ pyStr id ++ " " ++ toString c ++ " " ++ pyStr b)

theorem update_report_sixform (bid : PyVal) (cb : Nat × PyVal) :
    SixForm (update_report bid cb) := by
  unfold update_report SixForm
  by_cases hc : (cb.1 != 200) = true
  · rw [if_pos hc]
    exact Or.inr (Or.inr (Or.inr (Or.inr (Or.inl ⟨bid, cb.1, cb.2, rfl⟩))))
  · rw [if_neg hc]
    exact Or.inr (Or.inr (Or.inr (Or.inr (Or.inr ⟨bid, cb.1, cb.2, rfl⟩))))

/-- The line `l` announces the strategy that won the resolution of `row`
together with the value it matched: a direct `building_id` hit with no
lookup call, a `toid` lookup hit on the row's own `toid` value, or a
`uprn` lookup hit on the row's own `uprn` value after the `toid` strategy
was inapplicable or its lookup found nothing — in which case the attempted
`toid` lookup is recorded in `calls` but contributes no line. -/
def WinningLine (net : LookupNet) (row : Row) (r : ResolveResult) (l : String) : Prop :=
  (dictGet? row "building_id" = some r.result ∧ r.calls = [] ∧
    l = "match_by_building_id " ++ pyStr r.result) ∨
  (noUsableBid row = true ∧
    ∃ tv, dictGet? row "toid" = some tv ∧
      find_by_reference net "toid" tv = .ok r.result ∧
      r.calls = [("toid", tv)] ∧
      l = "match_by_toid " ++ pyStr tv ++ " " ++ pyStr r.result) ∨
  (noUsableBid row = true ∧
    ∃ uv, dictGet? row "uprn" = some uv ∧
      find_by_reference net "uprn" uv = .ok r.result ∧
      l = "match_by_uprn " ++ pyStr uv ++ " " ++ pyStr r.result ∧
      ((dictGet? row "toid" = Option.none ∧ r.calls = [("uprn", uv)]) ∨
       (∃ tv, dictGet? row "toid" = some tv ∧
         find_by_reference net "toid" tv = .ok PyVal.none ∧
         r.calls = [("toid", tv), ("uprn", uv)])))

theorem winning_line_sixform (net : LookupNet) (row : Row) (r : ResolveResult)
    (l : String) (hw : WinningLine net row r l) : SixForm l := by
  unfold SixForm
  rcases hw with ⟨_, _, hl⟩ | ⟨_, tv, _, _, _, hl⟩ | ⟨_, uv, _, _, hl, _⟩
  · exact Or.inl ⟨r.result, hl⟩
  · exact Or.inr (Or.inl ⟨tv, r.result, hl⟩)
  · exact Or.inr (Or.inr (Or.inl ⟨uv, r.result, hl⟩))

theorem no_match_sixform (row : Row) : SixForm ("no_match " ++ rowStr row) := by
  unfold SixForm
  exact Or.inr (Or.inr (Or.inr (Or.inl ⟨row, rfl⟩)))

theorem find_building_report (net : LookupNet) (row : Row) (r : ResolveResult)
    (h : find_building net row = .ok r) :
    ∃ l, r.output = [l] ∧
      ((isNone r.result = true ∧ l = "no_match " ++ rowStr row) ∨
       (isNone r.result = false ∧ WinningLine net row r l)) := by
  rcases find_building_full net row r h with ⟨v, hg, hn, hr⟩ | ⟨hb, htoid⟩
  · subst hr
    exact ⟨_, rfl, Or.inr ⟨hn, Or.inl ⟨hg, rfl, rfl⟩⟩⟩
  · rcases find_building_toid_full net row r htoid with
      ⟨tv, b, ht, hlk, hn, hr⟩ | ⟨ht, huprn⟩ | ⟨tv, ht, hlt, huprn⟩
    · subst hr
      exact ⟨_, rfl, Or.inr ⟨hn, Or.inr (Or.inl ⟨hb, tv, ht, hlk, rfl, rfl⟩)⟩⟩
    · rcases find_building_uprn_full net row [] r huprn with
        ⟨hu, hr⟩ | ⟨uv, hu, ⟨hlk, hr⟩ | ⟨b, hlk, hn, hr⟩⟩
      · subst hr
        exact ⟨_, rfl, Or.inl ⟨rfl, rfl⟩⟩
      · subst hr
        exact ⟨_, rfl, Or.inl ⟨rfl, rfl⟩⟩
      · subst hr
        exact ⟨_, rfl, Or.inr ⟨hn, Or.inr (Or.inr
          ⟨hb, uv, hu, hlk, rfl, Or.inl ⟨ht, rfl⟩⟩)⟩⟩
    · rcases find_building_uprn_full net row [("toid", tv)] r huprn with
        ⟨hu, hr⟩ | ⟨uv, hu, ⟨hlk, hr⟩ | ⟨b, hlk, hn, hr⟩⟩
      · subst hr
        exact ⟨_, rfl, Or.inl ⟨rfl, rfl⟩⟩
      · subst hr
        exact ⟨_, rfl, Or.inl ⟨rfl, rfl⟩⟩
      · subst hr
        exact ⟨_, rfl, Or.inr ⟨hn, Or.inr (Or.inr
          ⟨hb, uv, hu, hlk, rfl, Or.inr ⟨tv, ht, hlt, rfl⟩⟩)⟩⟩

/-- Claim C8 (amended): every row's resolution outcome is reported with
exactly one line — a successful resolution prints a single line naming the
winning strategy and the value it matched, an unresolved row is flagged
with a single `no_match` line carrying the row, and failed intermediate
strategy attempts (lookups recorded in `calls` that did not resolve)
contribute no line of their own — and every line printed by the row's
processing has one of the six documented forms. -/
theorem resolution_reporting (net : LookupNet) (loads : JsonLoads)
    (post : UpdateNet) (jc : List String) (row : Row)
    (subs : List (PyVal × Row)) (out : List String)
    (h : process_row net loads post jc row = .ok (subs, out)) :
    (∀ r, find_building net row = .ok r →
      ∃ l, r.output = [l] ∧
        ((isNone r.result = true ∧ l = "no_match " ++ rowStr row) ∨
         (isNone r.result = false ∧ WinningLine net row r l))) ∧
    (∀ l ∈ out, SixForm l) := by
  refine ⟨fun r hr => find_building_report net row r hr, ?_⟩
  have houtform : ∀ r, find_building net row = .ok r → ∀ l ∈ r.output, SixForm l := by
    intro r hr l hl
    rcases find_building_report net row r hr with ⟨l₀, hout, hcase⟩
    rw [hout] at hl
    rcases List.mem_singleton.mp hl with rfl
    rcases hcase with ⟨_, rfl⟩ | ⟨_, hw⟩
    · exact no_match_sixform row
    · exact winning_line_sixform net row r l hw
  simp only [process_row] at h
  cases hfb : find_building net row with
  | error e => simp [hfb] at h
  | ok r =>
    cases hp : parse_json_columns loads row jc with
    | error e => simp [hfb, hp] at h
    | ok line2 =>
      simp only [hfb, hp] at h
      by_cases hn : isNone r.result
      · simp [hn] at h
        rcases h with ⟨h1, h2⟩
        intro l hl
        rw [← h2] at hl
        exact houtform r hfb l hl
      · simp [hn] at h
        rcases h with ⟨h1, h2⟩
        intro l hl
        rw [← h2] at hl
        rcases List.mem_append.mp hl with hfirst | hlast
        · exact houtform r hfb l hfirst
        · rcases List.mem_singleton.mp hlast with rfl
          exact update_report_sixform r.result _

/-- Reference-endpoint oracle for the claim C8 counterexample: `uprn=Y` has
exactly one candidate with `building_id` 5; `toid=X` (and anything else)
has no candidates. -/
def net8 : LookupNet := fun key idv =>
  if key == "uprn" && (match idv with | .str s => s == "Y" | _ => false) then
    .list [.dict [("building_id", .int 5)]]
  else .list []

/-- A row whose `toid` lookup finds nothing but whose `uprn` lookup hits. -/
def row8 : Row := [("toid", PyVal.str "X"), ("uprn", PyVal.str "Y")]

/-- A row whose only strategy, `toid`, finds no candidate (scenario C). -/
def row9 : Row := [("toid", PyVal.str "X999")]

/-- Claim C8 is false as stated: on `row8` the `toid` strategy is attempted
— its reference lookup is performed and resolves to no candidate — yet the
only line printed is the `uprn` match line, which mentions neither the
failed strategy name nor its value, so not every resolution attempt is
reported with its strategy name and matched value. -/
theorem per_attempt_reporting_counterexample :
    find_by_reference net8 "toid" (PyVal.str "X") = .ok PyVal.none ∧
    find_building net8 row8 =
      .ok ⟨PyVal.int 5, ["match_by_uprn Y 5"],
        [("toid", PyVal.str "X"), ("uprn", PyVal.str "Y")]⟩ ∧
    strOccurs "toid" "match_by_uprn Y 5" = false ∧
    strOccurs "X" "match_by_uprn Y 5" = false :=
  ⟨rfl, rfl, by decide, by decide⟩

/-- The resolution record of `row8`: the failed `toid` attempt is recorded
in `calls` but the single printed line reports the winning `uprn` match. -/
def res8 : ResolveResult :=
  ⟨PyVal.int 5, ["match_by_uprn Y 5"], [("toid", PyVal.str "X"), ("uprn", PyVal.str "Y")]⟩

/-- Witness for `resolution_reporting`: on `row8` the single printed line
names the winning `uprn` strategy and its matched value. -/
theorem resolution_reporting_witness :
    ∃ l, res8.output = [l] ∧
      ((isNone res8.result = true ∧ l = "no_match " ++ rowStr row8) ∨
       (isNone res8.result = false ∧ WinningLine net8 row8 res8 l)) :=
  (resolution_reporting net8 loads0 postOk [] row8 [(PyVal.int 5, row8)]
      ["match_by_uprn Y 5", "DEBUG 5 200 \x7b\x7d"] rfl).1 res8 rfl

/-- A row that no strategy can resolve, carrying a designated JSON column
whose value is invalid JSON. -/
def rowBad : Row := [("toid", PyVal.str "X999"), ("bad", PyVal.str "\x7b")]

/-- Claim C9: JSON-column decoding runs before the skip decision: a row
with a designated JSON column that fails to parse aborts the whole run —
even when the resolver returned no identifier for that row, so that the
row would otherwise have been skipped without any update submission. -/
theorem json_decoding_precedes_skip (net : LookupNet) (loads : JsonLoads)
    (post : UpdateNet) (jc : List String) (row : Row) (r : ResolveResult)
    (e : String) (hres : find_building net row = .ok r)
    (_hn : isNone r.result = true)
    (hbad : parse_json_columns loads row jc = .error e) :
    process_row net loads post jc row = .error e ∧
    ∀ rows, main net loads post jc (row :: rows) = .error e := by
  have h1 : process_row net loads post jc row = .error e := by
    simp [process_row, hres, hbad]
  exact ⟨h1, fun rows => by simp [main, h1]⟩

/-- Witness for `json_decoding_precedes_skip`: an unresolvable row with an
invalid JSON column aborts the run. -/
theorem json_decoding_precedes_skip_witness :
    main net8 loadsJ postOk ["bad"] [rowBad] =
      .error ("json.decoder.JSONDecodeError: " ++ "\x7b") :=
  (json_decoding_precedes_skip net8 loadsJ postOk ["bad"] rowBad
    ⟨PyVal.none, ["no_match " ++ rowStr rowBad], [("toid", PyVal.str "X999")]⟩
    ("json.decoder.JSONDecodeError: " ++ "\x7b") rfl rfl rfl).2 []

/-- Claim C10: the resolver rejects a `building_id` only when it is `None`:
an empty-string `building_id` is returned as the resolved identifier with
no lookup calls — the `toid` and `uprn` strategies are never consulted —
and the update is submitted keyed by the empty identifier. -/
theorem empty_building_id_accepted (net : LookupNet) (loads : JsonLoads)
    (post : UpdateNet) (jc : List String) (row : Row) (line2 : Row)
    (hbid : dictGet? row "building_id" = some (PyVal.str ""))
    (hp : parse_json_columns loads row jc = .ok line2) :
    find_building net row = .ok ⟨PyVal.str "", ["match_by_building_id "], []⟩ ∧
    process_row net loads post jc row =
      .ok ([(PyVal.str "", sustDecTransform line2)],
        ["match_by_building_id ",
          update_report (PyVal.str "") (post (PyVal.str "") (sustDecTransform line2))]) := by
  have h1 : find_building net row = .ok ⟨PyVal.str "", ["match_by_building_id "], []⟩ := by
    have hs : "match_by_building_id " ++ pyStr (PyVal.str "") = "match_by_building_id " := by
      decide
    simp [find_building, hbid, isNone, hs]
  refine ⟨h1, ?_⟩
  simp [process_row, h1, hp, isNone]

/-- A CSV row whose `building_id` field is the empty string, as produced
for every row of a CSV file with a `building_id` header column. -/
def rowE : Row := [("building_id", PyVal.str ""), ("height", PyVal.str "10")]

/-- Witness for `empty_building_id_accepted` on a concrete row. -/
theorem empty_building_id_accepted_witness :
    process_row netB loads0 postOk [] rowE =
      .ok ([(PyVal.str "", sustDecTransform rowE)],
        ["match_by_building_id ",
          update_report (PyVal.str "") (postOk (PyVal.str "") (sustDecTransform rowE))]) :=
  (empty_building_id_accepted netB loads0 postOk [] rowE rowE rfl rfl).2
